import Mathlib

/-!
Shallow embedding of `src/grade_homework.py`: a grading pipeline that loads a
notebook, runs its code cells in a subprocess, extracts a printed drag
coefficient from the captured stdout, scores it against a reference value,
and assembles a JSON report.

Text is modelled as `List Char`.  Python floats are idealised as rationals.
The two effectful operations — reading the notebook file and launching the
subprocess — are passed in as explicit parameters (`readResult`, `run`);
everything else in the source is pure and is translated directly.
-/

namespace GradeHomework

/-- ASCII whitespace as recognised by Python's `str.strip` and the regex
class `\s`: space, tab, newline, carriage return, vertical tab, form feed. -/
def isSpaceChar (c : Char) : Bool :=
  c == ' ' || c == '\t' || c == '\n' || c == '\r' || c == '\x0b' || c == '\x0c'

/-- Python `str.strip`: drop whitespace from both ends. -/
def stripChars (s : List Char) : List Char :=
  ((s.dropWhile isSpaceChar).reverse.dropWhile isSpaceChar).reverse

/-- A notebook cell as read by `nbformat.read (as_version=4)`: its
`cell_type` tag and its `source` text. -/
structure Cell where
  cell_type : List Char
  source : List Char
deriving DecidableEq

/-- `full_code`: the loop in `execute_notebook` appends `cell.source + '\n'`
for every cell whose `cell_type` equals `code`, in document order. -/
def fullCode : List Cell → List Char
  | [] => []
  | c :: cs =>
      (if c.cell_type = ( "code".data) then c.source ++ [ '\n'] else []) ++ fullCode cs

/-- The code-cell sources in document order (used to state properties of
`fullCode`). -/
def codeSources : List Cell → List (List Char)
  | [] => []
  | c :: cs =>
      if c.cell_type = ( "code".data) then c.source :: codeSources cs else codeSources cs

/-- Modelled from the spec: the executable unit as section 4.1 words it,
namely the code-cell sources "joined with newline separators" between
fragments.  Stated only to be compared with `fullCode`. -/
def specJoinedUnit (cells : List Cell) : List Char :=
  List.intercalate [ '\n'] (codeSources cells)

/-- Fields of a completed `subprocess.run` call that the source inspects. -/
structure RunResult where
  returncode : Int
  stdout : List Char
  stderr : List Char
deriving DecidableEq

/-- Outcome of launching the subprocess: normal completion, a
`subprocess.TimeoutExpired`, or any other exception (carrying its text). -/
inductive RunOutcome where
  | completed (r : RunResult)
  | timedOut
  | failed (msg : List Char)
deriving DecidableEq

/-- The `timeout=240` argument passed to `subprocess.run`. -/
def TIMEOUT_SECONDS : Nat := 240

/-- `execute_notebook`, with its two effects abstracted: `readResult` is the
outcome of `open` + `nbformat.read` (`.error e` when that raised, carrying
the exception text), and `run code t` is the outcome of
`subprocess.run([sys.executable, '-c', code], capture_output=True,
text=True, timeout=t)`.  Returns the Python pair `(output, error_message)`. -/
def execute_notebook (readResult : Except (List Char) (List Cell))
    (run : List Char → Nat → RunOutcome) :
    Option (List Char) × Option (List Char) :=
  match readResult with
  | .error e => (none, some (( "Error reading notebook file: ".data) ++ e))
  | .ok cells =>
      let full_code := fullCode cells
      if stripChars full_code = [] then
        (none, some ( "No code found in the notebook.".data))
      else
        match run full_code TIMEOUT_SECONDS with
        | .completed p =>
            if p.returncode ≠ 0 then
              (none, some (( "Code execution failed with an error:\n".data) ++ p.stderr))
            else
              (some p.stdout, none)
        | .timedOut => (none, some ( "Code execution timed out after 4 minutes.".data))
        | .failed e =>
            (none, some (( "An unexpected error occurred during execution: ".data) ++ e))

/-- The literal label of the regex
`Minimum Drag Coefficient \(Cd\):\s*([0-9.]+)`, lowercased: with
`re.IGNORECASE` the text matches when its lowercasing equals this. -/
def lcLabel : List Char := ( "minimum drag coefficient (cd):".data)

/-- The regex label as written in the source (its exact case). -/
def LABEL : List Char := ( "Minimum Drag Coefficient (Cd):".data)

/-- A character matched by the regex class `[0-9.]`. -/
def isTokenChar (c : Char) : Bool := c.isDigit || c == '.'

/-- Try the regex at the start of `s`; on success return the captured group.
The label is literal; `\s*` is greedy but can never usefully backtrack,
since no whitespace character is in `[0-9.]`, so the capture is the maximal
`[0-9.]` run after the maximal whitespace run. -/
def matchAt (s : List Char) : Option (List Char) :=
  if (s.take lcLabel.length).map Char.toLower = lcLabel then
    let tok := ((s.drop lcLabel.length).dropWhile isSpaceChar).takeWhile isTokenChar
    if tok = [] then none else some tok
  else none

/-- `re.search`: try every start position left to right and return the first
match's captured group. -/
def searchCd : List Char → Option (List Char)
  | [] => none
  | c :: cs =>
      match matchAt (c :: cs) with
      | some t => some t
      | none => searchCd cs

/-- The reference constant `OPTIMAL_CD = 0.300353`. -/
def OPTIMAL_CD : ℚ := 300353 / 1000000

/-- The full-marks band `TOLERANCE = 0.10`. -/
def TOLERANCE : ℚ := 1 / 10

/-- Value of a decimal digit string. -/
def natOfDigits (ds : List Char) : Nat :=
  ds.foldl (fun n c => 10 * n + (c.toNat - 48)) 0

/-- Whether Python `float` accepts the token.  The token is drawn from
`[0-9.]+`, on which `float` succeeds exactly when it has at most one dot and
at least one digit. -/
def floatParsable (tok : List Char) : Bool :=
  decide (tok.countP (fun c => c == '.') ≤ 1) && tok.any Char.isDigit

/-- Python `float(tok)` for accepted tokens, idealised to `ℚ`: the digits
before the first dot are the integer part, the digits after it the
fractional part. -/
def parseFloat (tok : List Char) : ℚ :=
  let ip := tok.takeWhile (fun c => c != '.')
  let fp := (tok.dropWhile (fun c => c != '.')).drop 1
  (natOfDigits ip : ℚ) + (natOfDigits fp : ℚ) / (10 : ℚ) ^ fp.length

/-- `error = abs(student_cd - OPTIMAL_CD) / OPTIMAL_CD`. -/
def relError (student_cd : ℚ) : ℚ := |student_cd - OPTIMAL_CD| / OPTIMAL_CD

/-- The un-rounded piecewise score as a function of the relative error. -/
def scoreOfError (error : ℚ) : ℚ :=
  if error ≤ TOLERANCE then 10
  else if error < 1 then 10 * (1 - (error - TOLERANCE) / (1 - TOLERANCE))
  else 0

/-- Python `round(x, 2)`, idealised as rounding to the nearest multiple of
`1/100` (half up). -/
def round2 (q : ℚ) : ℚ := ((⌊q * 100 + 1 / 2⌋ : ℤ) : ℚ) / 100

/-- The rounded score assigned to an extracted value. -/
def scoreFor (student_cd : ℚ) : ℚ := round2 (scoreOfError (relError student_cd))

/-- Feedback as `grade_result` produces it: either one of its literal error
strings, or the data interpolated into the success feedback string
(student value, relative error, rounded score). -/
inductive GradeMsg where
  | text (msg : List Char)
  | graded (student_cd error score : ℚ)
deriving DecidableEq

/-- Score and feedback once a token has been captured: parse it, or report
the value-parse error carrying the offending token. -/
def gradeToken (tok : List Char) : ℚ × GradeMsg :=
  if floatParsable tok then
    let student_cd := parseFloat tok
    (scoreFor student_cd, .graded student_cd (relError student_cd) (scoreFor student_cd))
  else
    (0, .text (( "Could not parse the drag coefficient value \x27".data) ++ tok ++ ( "\x27.".data)))

/-- `grade_result`: pattern-extract the drag coefficient from the captured
output and score it. -/
def grade_result (output : Option (List Char)) : ℚ × GradeMsg :=
  match output with
  | none => (0, .text ( "Could not get output from the notebook.".data))
  | some out =>
      match searchCd out with
      | none =>
          (0, .text ( "Could not find the \x27Minimum Drag Coefficient (Cd)\x27 in the output. Make sure it is printed correctly.".data))
      | some tok => gradeToken tok

/-- The fixed test name of the report. -/
def TEST_NAME : List Char := ( "Spoiler Optimization Autograding".data)

/-- One entry of the `tests` array of the emitted JSON. -/
structure TestEntry where
  name : List Char
  score : ℚ
  max_score : ℚ
  output : GradeMsg
deriving DecidableEq

/-- The JSON document printed by `main`: an object with the single key
`tests` holding an array of entries. -/
structure Report where
  tests : List TestEntry
deriving DecidableEq

/-- `main`, as the report value it serialises and prints (its only output).
Every error message `execute_notebook` can return is a nonempty string, so
Python's truthiness test `if error_message:` coincides with the `some`
case here. -/
def main (readResult : Except (List Char) (List Cell))
    (run : List Char → Nat → RunOutcome) : Report :=
  match execute_notebook readResult run with
  | (_, some msg) => ⟨[⟨TEST_NAME, 0, 10, .text msg⟩]⟩
  | (output, none) =>
      let sf := grade_result output
      ⟨[⟨TEST_NAME, sf.1, 10, sf.2⟩]⟩

/-! ## Rounding and scoring lemmas -/

lemma round2_eq_int (q : ℚ) (n : ℤ) (h1 : (n : ℚ) ≤ q * 100 + 1 / 2)
    (h2 : q * 100 + 1 / 2 < n + 1) : round2 q = (n : ℚ) / 100 := by
  unfold round2
  rw [Int.floor_eq_iff.mpr ⟨h1, by exact_mod_cast h2⟩]

lemma round2_ten : round2 (10 : ℚ) = 10 := by
  rw [round2_eq_int 10 1000 (by norm_num) (by norm_num)]
  norm_num

lemma round2_zero : round2 (0 : ℚ) = 0 := by
  rw [round2_eq_int 0 0 (by norm_num) (by norm_num)]
  norm_num

lemma round2_mono {p q : ℚ} (h : p ≤ q) : round2 p ≤ round2 q := by
  unfold round2
  have hf : ⌊p * 100 + 1 / 2⌋ ≤ ⌊q * 100 + 1 / 2⌋ := Int.floor_mono (by linarith)
  have hc : ((⌊p * 100 + 1 / 2⌋ : ℤ) : ℚ) ≤ ((⌊q * 100 + 1 / 2⌋ : ℤ) : ℚ) := by
    exact_mod_cast hf
  gcongr

lemma round2_mul_hundred (q : ℚ) : ∃ n : ℤ, round2 q * 100 = (n : ℚ) := by
  refine ⟨⌊q * 100 + 1 / 2⌋, ?_⟩
  unfold round2
  field_simp

lemma scoreOfError_bounds (e : ℚ) : 0 ≤ scoreOfError e ∧ scoreOfError e ≤ 10 := by
  unfold scoreOfError TOLERANCE
  split
  · norm_num
  · split
    · rename_i h1 h2
      push_neg at h1
      have hx0 : 0 < (e - 1 / 10) / (1 - 1 / 10) := div_pos (by linarith) (by norm_num)
      have hx1 : (e - 1 / 10) / (1 - 1 / 10) < 1 := by
        rw [div_lt_one (by norm_num : (0 : ℚ) < 1 - 1 / 10)]
        linarith
      constructor <;> linarith
    · norm_num

lemma scoreFor_bounds (v : ℚ) : 0 ≤ scoreFor v ∧ scoreFor v ≤ 10 := by
  unfold scoreFor
  constructor
  · have h := round2_mono (scoreOfError_bounds (relError v)).1
    rwa [round2_zero] at h
  · have h := round2_mono (scoreOfError_bounds (relError v)).2
    rwa [round2_ten] at h

/-! ## Claim C1 -/

/-- C1: for every extracted student value `v`, with `R = 0.300353` and
relative error `e = |v - R| / R`, the scorer returns `10.0` when
`e ≤ 0.10`, returns `10.0 * (1 - (e - 0.10) / 0.90)` (then rounded) when
`0.10 < e < 1.0`, returns `0.0` when `e ≥ 1.0`, and the result is rounded
to two decimal places (its hundredfold is an integer). -/
theorem C1_scoring_formula (v e : ℚ) (he : e = |v - OPTIMAL_CD| / OPTIMAL_CD) :
    (e ≤ 1 / 10 → scoreFor v = 10) ∧
    (1 / 10 < e → e < 1 → scoreFor v = round2 (10 * (1 - (e - 1 / 10) / (9 / 10)))) ∧
    (1 ≤ e → scoreFor v = 0) ∧
    ∃ n : ℤ, scoreFor v * 100 = (n : ℚ) := by
  have hrel : relError v = e := by rw [relError, he]
  refine ⟨?_, ?_, ?_, ?_⟩
  · intro h
    unfold scoreFor scoreOfError TOLERANCE
    rw [hrel, if_pos h, round2_ten]
  · intro h1 h2
    unfold scoreFor scoreOfError TOLERANCE
    rw [hrel, if_neg (not_le.mpr h1), if_pos h2]
    norm_num
  · intro h
    unfold scoreFor scoreOfError TOLERANCE
    rw [hrel, if_neg (by intro hc; linarith), if_neg (not_lt.mpr h), round2_zero]
  · unfold scoreFor
    exact round2_mul_hundred _

/-- Witness for C1: instances of all three branches at concrete values. -/
theorem C1_scoring_formula_witness :
    scoreFor OPTIMAL_CD = 10 ∧
    scoreFor (3 * OPTIMAL_CD / 2) = round2 (10 * (1 - ((1 : ℚ) / 2 - 1 / 10) / (9 / 10))) ∧
    scoreFor (2 * OPTIMAL_CD) = 0 := by
  have habs : |3 * OPTIMAL_CD / 2 - OPTIMAL_CD| = OPTIMAL_CD / 2 := by
    rw [abs_of_nonneg] <;> [ring_nf; norm_num [OPTIMAL_CD]]
  have habs2 : |2 * OPTIMAL_CD - OPTIMAL_CD| = OPTIMAL_CD := by
    rw [abs_of_nonneg] <;> [ring_nf; norm_num [OPTIMAL_CD]]
  refine ⟨?_, ?_, ?_⟩
  · exact (C1_scoring_formula OPTIMAL_CD 0 (by simp)).1 (by norm_num)
  · exact (C1_scoring_formula (3 * OPTIMAL_CD / 2) (1 / 2)
      (by rw [habs]; norm_num [OPTIMAL_CD])).2.1 (by norm_num) (by norm_num)
  · exact (C1_scoring_formula (2 * OPTIMAL_CD) 1
      (by rw [habs2]; norm_num [OPTIMAL_CD])).2.2.1 (by norm_num)

/-! ## Claim C9 -/

lemma grade_text_score (output : Option (List Char)) (m : List Char)
    (h : (grade_result output).2 = .text m) : (grade_result output).1 = 0 := by
  match output with
  | none => rfl
  | some out =>
      cases hs : searchCd out with
      | none => simp [grade_result, hs]
      | some tok =>
          simp only [grade_result, hs] at h ⊢
          cases hp : floatParsable tok with
          | true =>
              rw [gradeToken, if_pos hp] at h
              exact absurd h (by simp)
          | false =>
              rw [gradeToken, if_neg (by simp [hp])]

/-- C9: for every captured output (including `None` and texts where
extraction or parsing fails), the score returned by `grade_result` is in
`[0, 10]` and is an integer number of hundredths. -/
theorem C9_score_range (output : Option (List Char)) :
    0 ≤ (grade_result output).1 ∧ (grade_result output).1 ≤ 10 ∧
    ∃ n : ℤ, (grade_result output).1 * 100 = (n : ℚ) := by
  match output with
  | none => exact ⟨le_refl _, by norm_num [grade_result], 0, by norm_num [grade_result]⟩
  | some out =>
      cases hs : searchCd out with
      | none =>
          simp only [grade_result, hs]
          exact ⟨le_refl _, by norm_num, 0, by norm_num⟩
      | some tok =>
          simp only [grade_result, hs]
          unfold gradeToken
          split
          · refine ⟨(scoreFor_bounds _).1, (scoreFor_bounds _).2, ?_⟩
            unfold scoreFor
            exact round2_mul_hundred _
          · exact ⟨le_refl _, by norm_num, 0, by norm_num⟩

/-! ## Whitespace and concatenation lemmas -/

lemma stripChars_eq_nil_iff (l : List Char) :
    stripChars l = [] ↔ ∀ c ∈ l, isSpaceChar c = true := by
  unfold stripChars
  rw [List.reverse_eq_nil_iff, List.dropWhile_eq_nil_iff]
  constructor
  · intro h c hc
    have hsplit : c ∈ l.takeWhile isSpaceChar ++ l.dropWhile isSpaceChar := by
      rw [List.takeWhile_append_dropWhile]
      exact hc
    rcases List.mem_append.mp hsplit with h1 | h1
    · exact List.mem_takeWhile_imp h1
    · exact h c (List.mem_reverse.mpr h1)
  · intro h c hc
    exact h c ((List.dropWhile_sublist isSpaceChar).subset (List.mem_reverse.mp hc))

lemma fullCode_space (cells : List Cell)
    (h : ∀ c ∈ cells, c.cell_type = ( "code".data) → ∀ ch ∈ c.source, isSpaceChar ch = true) :
    ∀ ch ∈ fullCode cells, isSpaceChar ch = true := by
  induction cells with
  | nil => intro ch hch; simp [fullCode] at hch
  | cons c cs ih =>
      intro ch hch
      simp only [fullCode] at hch
      rw [List.mem_append] at hch
      rcases hch with hch | hch
      · by_cases hct : c.cell_type = ( "code".data)
        · rw [if_pos hct, List.mem_append] at hch
          rcases hch with hch | hch
          · exact h c (List.mem_cons_self c cs) hct ch hch
          · rw [List.mem_singleton] at hch
            subst hch
            rfl
        · rw [if_neg hct] at hch
          simp at hch
      · exact ih (fun c' hc' => h c' (List.mem_cons_of_mem c hc')) ch hch

lemma fullCode_eq_flatten (cells : List Cell) :
    fullCode cells = ((codeSources cells).map (fun s => s ++ [ '\n'])).flatten := by
  induction cells with
  | nil => rfl
  | cons c cs ih =>
      by_cases h : c.cell_type = ( "code".data)
      · simp only [fullCode, codeSources, if_pos h, List.map_cons, List.flatten_cons, ih,
          List.append_assoc]
      · simp only [fullCode, codeSources, if_neg h, ih, List.nil_append]

lemma intercalate_cons₂ (s a b : List Char) (t : List (List Char)) :
    List.intercalate s (a :: b :: t) = a ++ s ++ List.intercalate s (b :: t) := by
  simp [List.intercalate, List.intersperse_cons_cons, List.append_assoc]

lemma flatten_newline_eq_intercalate (l : List (List Char)) (h : l ≠ []) :
    (l.map (fun s => s ++ [ '\n'])).flatten = List.intercalate [ '\n'] l ++ [ '\n'] := by
  induction l with
  | nil => exact absurd rfl h
  | cons a t ih =>
      cases t with
      | nil => simp [List.intercalate]
      | cons b t2 =>
          rw [List.map_cons, List.flatten_cons, ih (List.cons_ne_nil b t2), intercalate_cons₂]
          simp [List.append_assoc]

/-! ## Claim C6 -/

/-- C6 counterexample: for a notebook with the single code cell `a`, the
built unit is `a` followed by a newline, not the plain newline-join `a`
of the fragments. -/
theorem C6_join_counterexample :
    fullCode [⟨( "code".data), ( "a".data)⟩] = ( "a\n".data) ∧
    specJoinedUnit [⟨( "code".data), ( "a".data)⟩] = ( "a".data) ∧
    fullCode [⟨( "code".data), ( "a".data)⟩] ≠ specJoinedUnit [⟨( "code".data), ( "a".data)⟩] := by
  refine ⟨by decide, by decide, by decide⟩

/-- C6 amended: the unit is the sources of the code-type cells (non-code
cells excluded), in document order, each fragment followed by a newline;
equivalently, when at least one code cell is present, the newline-join of
the fragments plus one trailing newline. -/
theorem C6_full_code (cells : List Cell) (h : codeSources cells ≠ []) :
    fullCode cells = ((codeSources cells).map (fun s => s ++ [ '\n'])).flatten ∧
    fullCode cells = specJoinedUnit cells ++ [ '\n'] := by
  refine ⟨fullCode_eq_flatten cells, ?_⟩
  rw [fullCode_eq_flatten cells, specJoinedUnit, flatten_newline_eq_intercalate _ h]

/-- Witness for C6 on a mixed notebook with two code cells. -/
theorem C6_full_code_witness :
    fullCode [⟨( "markdown".data), ( "hi".data)⟩, ⟨( "code".data), ( "a".data)⟩,
        ⟨( "code".data), ( "b".data)⟩] =
      ((codeSources [⟨( "markdown".data), ( "hi".data)⟩, ⟨( "code".data), ( "a".data)⟩,
        ⟨( "code".data), ( "b".data)⟩]).map (fun s => s ++ [ '\n'])).flatten ∧
    fullCode [⟨( "markdown".data), ( "hi".data)⟩, ⟨( "code".data), ( "a".data)⟩,
        ⟨( "code".data), ( "b".data)⟩] =
      specJoinedUnit [⟨( "markdown".data), ( "hi".data)⟩, ⟨( "code".data), ( "a".data)⟩,
        ⟨( "code".data), ( "b".data)⟩] ++ [ '\n'] :=
  C6_full_code _ (by decide)

/-! ## Claim C7 -/

/-- C7: the loader fails with the document-read message carrying the
underlying cause when the notebook cannot be read or parsed, and with the
empty-code message when every code cell is empty after trimming whitespace
(in particular when there is no code cell at all). -/
theorem C7_loader_errors (e : List Char) (cells : List Cell)
    (runA runB : List Char → Nat → RunOutcome)
    (hcells : ∀ c ∈ cells, c.cell_type = ( "code".data) → stripChars c.source = []) :
    execute_notebook (.error e) runA =
      (none, some (( "Error reading notebook file: ".data) ++ e)) ∧
    execute_notebook (.ok cells) runB =
      (none, some ( "No code found in the notebook.".data)) := by
  refine ⟨rfl, ?_⟩
  have hall : ∀ ch ∈ fullCode cells, isSpaceChar ch = true :=
    fullCode_space cells (fun c hc ht => (stripChars_eq_nil_iff c.source).mp (hcells c hc ht))
  have hnil : stripChars (fullCode cells) = [] := (stripChars_eq_nil_iff _).mpr hall
  simp only [execute_notebook]
  rw [if_pos hnil]

/-- Witness for C7: a failing read, and a notebook whose only code cell is
whitespace. -/
theorem C7_loader_errors_witness :
    execute_notebook (.error ( "boom".data)) (fun _ _ => RunOutcome.timedOut) =
      (none, some (( "Error reading notebook file: ".data) ++ ( "boom".data))) ∧
    execute_notebook
        (.ok [⟨( "markdown".data), ( "hello".data)⟩, ⟨( "code".data), ( "  \n".data)⟩])
        (fun _ _ => RunOutcome.timedOut) =
      (none, some ( "No code found in the notebook.".data)) :=
  C7_loader_errors ( "boom".data) _ _ _ (by decide)

/-! ## Claims C4 and C5 -/

lemma execute_notebook_completed (cells : List Cell)
    (run : List Char → Nat → RunOutcome) (p : RunResult)
    (hne : stripChars (fullCode cells) ≠ [])
    (hrun : run (fullCode cells) 240 = .completed p) :
    execute_notebook (.ok cells) run =
      if p.returncode ≠ 0 then
        (none, some (( "Code execution failed with an error:\n".data) ++ p.stderr))
      else (some p.stdout, none) := by
  simp only [execute_notebook]
  rw [if_neg hne, show run (fullCode cells) TIMEOUT_SECONDS = .completed p from hrun]

/-- C4: the executor returns the captured stdout verbatim if and only if the
subprocess exits with code zero; on a non-zero exit code it fails with the
execution-error message carrying the captured stderr. -/
theorem C4_executor (cells : List Cell) (run : List Char → Nat → RunOutcome)
    (p : RunResult)
    (hne : stripChars (fullCode cells) ≠ [])
    (hrun : run (fullCode cells) 240 = .completed p) :
    (execute_notebook (.ok cells) run = (some p.stdout, none) ↔ p.returncode = 0) ∧
    (p.returncode ≠ 0 →
      execute_notebook (.ok cells) run =
        (none, some (( "Code execution failed with an error:\n".data) ++ p.stderr))) := by
  have hbase := execute_notebook_completed cells run p hne hrun
  constructor
  · constructor
    · intro h
      by_contra hr
      rw [hbase, if_pos hr] at h
      simp at h
    · intro hr
      rw [hbase, if_neg (by simp [hr])]
  · intro hr
    rw [hbase, if_pos hr]

/-- Witness for C4: a zero-exit run returning its stdout, and a non-zero
exit run failing with its stderr. -/
theorem C4_executor_witness :
    (execute_notebook (.ok [⟨( "code".data), ( "print(1)".data)⟩])
        (fun _ _ => RunOutcome.completed ⟨0, ( "out".data), ( "".data)⟩) =
      (some ( "out".data), none) ↔ (0 : Int) = 0) ∧
    ((1 : Int) ≠ 0 →
      execute_notebook (.ok [⟨( "code".data), ( "print(1)".data)⟩])
          (fun _ _ => RunOutcome.completed ⟨1, ( "out".data), ( "err".data)⟩) =
        (none, some (( "Code execution failed with an error:\n".data) ++ ( "err".data)))) :=
  ⟨(C4_executor _ _ ⟨0, ( "out".data), ( "".data)⟩ (by decide) rfl).1,
   (C4_executor _ _ ⟨1, ( "out".data), ( "err".data)⟩ (by decide) rfl).2⟩

/-- C5: the executor invokes the subprocess with a 240-second timeout, and
when the timeout is exceeded it fails with the fixed 4-minute message,
which yields a zero score in the report. -/
theorem C5_timeout (cells : List Cell) (run : List Char → Nat → RunOutcome)
    (hne : stripChars (fullCode cells) ≠ [])
    (hrun : run (fullCode cells) 240 = .timedOut) :
    TIMEOUT_SECONDS = 240 ∧
    execute_notebook (.ok cells) run =
      (none, some ( "Code execution timed out after 4 minutes.".data)) ∧
    main (.ok cells) run =
      ⟨[⟨TEST_NAME, 0, 10, .text ( "Code execution timed out after 4 minutes.".data)⟩]⟩ := by
  have hex : execute_notebook (.ok cells) run =
      (none, some ( "Code execution timed out after 4 minutes.".data)) := by
    simp only [execute_notebook]
    rw [if_neg hne, show run (fullCode cells) TIMEOUT_SECONDS = .timedOut from hrun]
  exact ⟨rfl, hex, by simp only [main, hex]⟩

/-- Witness for C5: a run that times out on a one-cell notebook. -/
theorem C5_timeout_witness :
    TIMEOUT_SECONDS = 240 ∧
    execute_notebook (.ok [⟨( "code".data), ( "while True: pass".data)⟩])
        (fun _ _ => RunOutcome.timedOut) =
      (none, some ( "Code execution timed out after 4 minutes.".data)) ∧
    main (.ok [⟨( "code".data), ( "while True: pass".data)⟩])
        (fun _ _ => RunOutcome.timedOut) =
      ⟨[⟨TEST_NAME, 0, 10, .text ( "Code execution timed out after 4 minutes.".data)⟩]⟩ :=
  C5_timeout _ _ (by decide) rfl

/-! ## Extractor lemmas -/

lemma token_not_space {c : Char} (h : isTokenChar c = true) : isSpaceChar c = false := by
  cases hs : isSpaceChar c with
  | false => rfl
  | true =>
      simp only [isSpaceChar, Bool.or_eq_true, beq_iff_eq] at hs
      rcases hs with ((((rfl | rfl) | rfl) | rfl) | rfl) | rfl <;> exact absurd h (by decide)

lemma matchAt_some (s tok : List Char) (h : matchAt s = some tok) :
    tok ≠ [] ∧ ∀ c ∈ tok, isTokenChar c = true := by
  simp only [matchAt] at h
  split at h
  · split at h
    · exact absurd h (by simp)
    · rename_i hne
      injection h with h2
      subst h2
      exact ⟨hne, fun c hc => List.mem_takeWhile_imp hc⟩
  · exact absurd h (by simp)

lemma searchCd_some (s tok : List Char) (h : searchCd s = some tok) :
    tok ≠ [] ∧ ∀ c ∈ tok, isTokenChar c = true := by
  induction s with
  | nil => exact absurd h (by simp [searchCd])
  | cons c cs ih =>
      simp only [searchCd] at h
      cases hm : matchAt (c :: cs) with
      | some t =>
          rw [hm] at h
          injection h with h2
          subst h2
          exact matchAt_some _ _ hm
      | none =>
          rw [hm] at h
          exact ih h

lemma searchCd_append (pre post tok : List Char)
    (hpre : ∀ i, i < pre.length → matchAt (List.drop i pre ++ post) = none)
    (hpost : matchAt post = some tok) :
    searchCd (pre ++ post) = some tok := by
  induction pre with
  | nil =>
      cases post with
      | nil =>
          rw [show matchAt ([] : List Char) = none from by decide] at hpost
          exact absurd hpost (by simp)
      | cons c cs =>
          simp only [List.nil_append, searchCd, hpost]
  | cons p ps ih =>
      have h0 : matchAt (p :: (ps ++ post)) = none := by
        have h := hpre 0 (by simp)
        simpa using h
      have hstep : searchCd ((p :: ps) ++ post) = searchCd (ps ++ post) := by
        simp only [List.cons_append, searchCd, List.append_eq]
        rw [h0]
      rw [hstep]
      refine ih (fun i hi => ?_)
      have h := hpre (i + 1) (by simpa using Nat.succ_lt_succ hi)
      simpa [List.drop_succ_cons] using h

lemma matchAt_label (tok tr : List Char)
    (htok : tok ≠ []) (htokc : ∀ c ∈ tok, isTokenChar c = true)
    (htr : tr = [] ∨ ∃ c cs, tr = c :: cs ∧ isTokenChar c = false) :
    matchAt (LABEL ++ '\n' :: (tok ++ tr)) = some tok := by
  have hlen : LABEL.length = lcLabel.length := by decide
  have hlow : LABEL.map Char.toLower = lcLabel := by decide
  simp only [matchAt]
  rw [List.take_left' hlen, List.drop_left' hlen, hlow, if_pos rfl]
  have hdw : ('\n' :: (tok ++ tr)).dropWhile isSpaceChar = tok ++ tr := by
    rw [List.dropWhile_cons_of_pos (by decide)]
    cases tok with
    | nil => exact absurd rfl htok
    | cons t ts =>
        have hts : isSpaceChar t = false :=
          token_not_space (htokc t (List.mem_cons_self t ts))
        rw [List.cons_append, List.dropWhile_cons_of_neg (by simp [hts])]
  have htw : (tok ++ tr).takeWhile isTokenChar = tok := by
    rw [List.takeWhile_append_of_pos htokc]
    rcases htr with rfl | ⟨c, cs, rfl, hc⟩
    · simp
    · rw [List.takeWhile_cons_of_neg (by simp [hc]), List.append_nil]
  rw [hdw, htw, if_neg htok]

/-! ## Claim C2 -/

/-- C2 counterexample: the matcher captures the token `1.2.3`, which has two
decimal points, so the matched token is not restricted to at most one
decimal point. -/
theorem C2_token_counterexample :
    searchCd ( "Minimum Drag Coefficient (Cd): 1.2.3".data) = some ( "1.2.3".data) ∧
    List.countP (fun c => c == '.') ( "1.2.3".data) = 2 := by
  refine ⟨by decide, by decide⟩

/-- C2 amended: after the case-insensitive label the extractor matches a
nonempty token of digits and dots (possibly several dots, or no digit at
all); when no match exists it fails with the pattern-not-found message,
and when the matched token is not parseable as a float it fails with the
value-parse message carrying the offending token. -/
theorem C2_extractor_errors (out tok : List Char) :
    (searchCd out = none → grade_result (some out) =
      (0, .text ( "Could not find the \x27Minimum Drag Coefficient (Cd)\x27 in the output. Make sure it is printed correctly.".data))) ∧
    (searchCd out = some tok → tok ≠ [] ∧ ∀ c ∈ tok, isTokenChar c = true) ∧
    (searchCd out = some tok → floatParsable tok = false →
      grade_result (some out) =
        (0, .text (( "Could not parse the drag coefficient value \x27".data) ++ tok ++ ( "\x27.".data)))) := by
  refine ⟨?_, ?_, ?_⟩
  · intro h
    simp only [grade_result, h]
  · exact searchCd_some out tok
  · intro h hp
    simp only [grade_result, h]
    rw [gradeToken, if_neg (by simp [hp])]

/-- Witness for C2: a text without the label, and a matched token with two
dots that fails to parse. -/
theorem C2_extractor_errors_witness :
    grade_result (some ( "no label here".data)) =
      (0, .text ( "Could not find the \x27Minimum Drag Coefficient (Cd)\x27 in the output. Make sure it is printed correctly.".data)) ∧
    grade_result (some ( "Minimum Drag Coefficient (Cd): 1.2.3".data)) =
      (0, .text (( "Could not parse the drag coefficient value \x27".data) ++ ( "1.2.3".data) ++ ( "\x27.".data))) :=
  ⟨(C2_extractor_errors ( "no label here".data) []).1 (by decide),
   (C2_extractor_errors ( "Minimum Drag Coefficient (Cd): 1.2.3".data)
     ( "1.2.3".data)).2.2 (by decide) (by decide)⟩

/-! ## Claim C8 -/

/-- C8: when no match starts inside the leading text and a match starts at
the head of `post`, the first match alone determines the extracted token
and the score, whatever `post` contains after it (in particular further
matches are ignored). -/
theorem C8_first_match_wins (pre post tok : List Char)
    (hpre : ∀ i, i < pre.length → matchAt (List.drop i pre ++ post) = none)
    (hpost : matchAt post = some tok) :
    searchCd (pre ++ post) = some tok ∧
    grade_result (some (pre ++ post)) = gradeToken tok := by
  have hs := searchCd_append pre post tok hpre hpost
  exact ⟨hs, by simp only [grade_result, hs]⟩

/-- Witness for C8: an output containing the pattern twice; the result is
the first token. -/
theorem C8_first_match_wins_witness :
    searchCd (( "= ".data) ++
        ( "Minimum Drag Coefficient (Cd): 0.300353 Minimum Drag Coefficient (Cd): 9".data)) =
      some ( "0.300353".data) ∧
    grade_result (some (( "= ".data) ++
        ( "Minimum Drag Coefficient (Cd): 0.300353 Minimum Drag Coefficient (Cd): 9".data))) =
      gradeToken ( "0.300353".data) :=
  C8_first_match_wins _ _ _ (by decide) (by decide)

/-! ## Claim C10 -/

/-- C10: the pattern is not anchored to a line: the label may follow
arbitrary leading text (as long as no earlier match exists), and a newline
may stand between the label and the numeric token; the token is still
extracted and determines the score. -/
theorem C10_pattern_unanchored (ld tr tok : List Char)
    (htok : tok ≠ []) (htokc : ∀ c ∈ tok, isTokenChar c = true)
    (hld : ∀ i, i < ld.length →
      matchAt (List.drop i ld ++ (LABEL ++ '\n' :: (tok ++ tr))) = none)
    (htr : tr = [] ∨ ∃ c cs, tr = c :: cs ∧ isTokenChar c = false) :
    searchCd (ld ++ (LABEL ++ '\n' :: (tok ++ tr))) = some tok ∧
    grade_result (some (ld ++ (LABEL ++ '\n' :: (tok ++ tr)))) = gradeToken tok := by
  have hs := searchCd_append ld _ tok hld (matchAt_label tok tr htok htokc htr)
  exact ⟨hs, by simp only [grade_result, hs]⟩

/-- Witness for C10: the label sits mid-line after other text and the value
is printed on the following line; it is still extracted and scored. -/
theorem C10_pattern_unanchored_witness :
    searchCd (( "some text ".data) ++
        (LABEL ++ '\n' :: (( "0.300353".data) ++ ( " more".data)))) =
      some ( "0.300353".data) ∧
    grade_result (some (( "some text ".data) ++
        (LABEL ++ '\n' :: (( "0.300353".data) ++ ( " more".data))))) =
      gradeToken ( "0.300353".data) :=
  C10_pattern_unanchored ( "some text ".data) ( " more".data) ( "0.300353".data)
    (by decide) (by decide) (by decide)
    (Or.inr ⟨' ', ( "more".data), by decide, by decide⟩)

/-! ## Claim C3 -/

/-- C3: the report is a single test entry with the fixed name and
`max_score = 10`; when any stage of `execute_notebook` failed the score is 0
and the output is that stage's reason string; otherwise score and output
come from `grade_result`, and any error feedback carries score 0. -/
theorem C3_report_shape (readResult : Except (List Char) (List Cell))
    (run : List Char → Nat → RunOutcome) :
    (main readResult run).tests.map TestEntry.max_score = [10] ∧
    (∀ msg, (execute_notebook readResult run).2 = some msg →
      main readResult run = ⟨[⟨TEST_NAME, 0, 10, .text msg⟩]⟩) ∧
    ((execute_notebook readResult run).2 = none →
      main readResult run = ⟨[⟨TEST_NAME,
        (grade_result (execute_notebook readResult run).1).1, 10,
        (grade_result (execute_notebook readResult run).1).2⟩]⟩) ∧
    (∀ t ∈ (main readResult run).tests, ∀ m, t.output = .text m → t.score = 0) := by
  rcases hex : execute_notebook readResult run with ⟨out, msg⟩
  cases msg with
  | some m =>
      refine ⟨?_, ?_, ?_, ?_⟩
      · simp [main, hex]
      · intro msg hm
        obtain rfl : m = msg := by simpa using hm
        simp [main, hex]
      · intro hnone
        simp at hnone
      · intro t ht m2 hout
        simp only [main, hex] at ht
        have h := List.mem_singleton.mp ht
        subst h
        rfl
  | none =>
      refine ⟨?_, ?_, ?_, ?_⟩
      · simp [main, hex]
      · intro msg hm
        simp at hm
      · intro _
        simp [main, hex]
      · intro t ht m hout
        simp only [main, hex] at ht
        have h := List.mem_singleton.mp ht
        subst h
        exact grade_text_score out m (by simpa using hout)

/-- Witness for C3: a failing read gives the zero-score report carrying the
read error; a successful run gives the report built from `grade_result`;
an error-text entry has score 0. -/
theorem C3_report_shape_witness :
    (main (.error ( "x".data)) (fun _ _ => RunOutcome.timedOut)).tests.map
        TestEntry.max_score = [10] ∧
    main (.error ( "x".data)) (fun _ _ => RunOutcome.timedOut) =
      ⟨[⟨TEST_NAME, 0, 10, .text (( "Error reading notebook file: ".data) ++ ( "x".data))⟩]⟩ ∧
    main (.ok [⟨( "code".data), ( "x=1".data)⟩])
        (fun _ _ => RunOutcome.completed ⟨0, ( "ok".data), ( "".data)⟩) =
      ⟨[⟨TEST_NAME,
        (grade_result (execute_notebook (.ok [⟨( "code".data), ( "x=1".data)⟩])
          (fun _ _ => RunOutcome.completed ⟨0, ( "ok".data), ( "".data)⟩)).1).1, 10,
        (grade_result (execute_notebook (.ok [⟨( "code".data), ( "x=1".data)⟩])
          (fun _ _ => RunOutcome.completed ⟨0, ( "ok".data), ( "".data)⟩)).1).2⟩]⟩ ∧
    (⟨TEST_NAME, 0, 10,
      .text (( "Error reading notebook file: ".data) ++ ( "x".data))⟩ : TestEntry).score = 0 := by
  have h2 := (C3_report_shape (.error ( "x".data)) (fun _ _ => RunOutcome.timedOut)).2.1
    (( "Error reading notebook file: ".data) ++ ( "x".data)) (by decide)
  refine ⟨(C3_report_shape _ _).1, h2, ?_, ?_⟩
  · exact (C3_report_shape (.ok [⟨( "code".data), ( "x=1".data)⟩])
      (fun _ _ => RunOutcome.completed ⟨0, ( "ok".data), ( "".data)⟩)).2.2.1 (by decide)
  · exact (C3_report_shape (.error ( "x".data)) (fun _ _ => RunOutcome.timedOut)).2.2.2
      ⟨TEST_NAME, 0, 10, .text (( "Error reading notebook file: ".data) ++ ( "x".data))⟩
      (by rw [h2]; exact List.mem_singleton.mpr rfl)
      (( "Error reading notebook file: ".data) ++ ( "x".data)) rfl

end GradeHomework
